import Mathlib

/-!
# Shallow embedding of `losoto/operations/flagstation.py`

This file embeds the station-flagging engine of the repository
(`src/losoto/operations/flagstation.py`) in Lean 4 and settles the frozen
claims C1..C10 about it.

Modelling conventions, used throughout and referred to from the doc comments
of individual definitions:

* Machine floats are modelled as exact rationals (`ℚ`).  Decimal literals of
  the source (`0.2`, `1e8`, `0.01`, the spline knots and coefficients) are
  taken at their decimal value.
* numpy `NaN` is modelled as `none` in `Option ℚ` (named `Val` below).  The
  engine's solution ("vals"/"amps") arrays can hold NaN; weight arrays never
  do in the data model, so weights are plain `ℚ`.
* The handful of real-valued transcendental primitives the source calls
  (`np.log10`, `np.sqrt`, `10.0**x`, the circular-mean expression built from
  `np.exp`/`np.angle`, `normalize_phase` from `losoto.lib_operations`, and
  `scipy.optimize.curve_fit`) are abstracted as fields of an `Oracles`
  structure that every embedded function takes as a parameter.  Every
  universally quantified theorem below quantifies over the oracles, so it
  holds in particular for the real functions.  Where a concrete witness or
  counterexample instantiates an oracle, the instantiation agrees with the
  real function at every point at which the run evaluates it (e.g. `log10`
  is only applied to powers of ten), except where the value provably does
  not influence the stated fact.
* The source compares `|x| > nSigma * min(maxStddev, sqrt(avg))`.  To keep
  the embedding computable over `ℚ` these comparisons are carried out in
  squared form, `x^2 > nSigma^2 * min(maxStddev^2, avg)`, which is
  equivalent for the nonnegative `nSigma`, `maxStddev` and weighted averages
  of squares of the data model; the lemma `sqrt_threshold_sq_iff` below
  proves this equivalence over `ℝ`.
* Arrays indexed `[time, ant, freq, pol]` in the source are re-indexed
  antenna-major and polarization-major here (`[pol][time][freq]` per
  antenna); the per-antenna, per-polarization processing of the source makes
  this a pure re-indexing.  In resid mode all per-polarization operations
  are pointwise or whole-slice reductions over the `[time, freq]` plane (the
  source itself calls `.flatten()` for the reductions), so that plane is
  flattened to a single list.
* In-place numpy view mutation (`weights_orig = weights[:, :, pol]`,
  `weights_orig[bad_sols] = 0.0`, ...) is modelled by explicit state
  passing: each embedded task returns the final value of the arrays it can
  write through views.
-/

namespace Flagstation

/-- Rational equality decided through the order (`a = b ↔ a ≤ b ∧ b ≤ a`).
Propositionally this is the standard equality of `ℚ`; phrasing the
decision procedure through `≤` keeps definitional unfolding of the
equality tests below (knot comparisons, zero tests) tractable. -/
instance ratDecEqFast : DecidableEq ℚ := fun a b =>
  decidable_of_iff (a ≤ b ∧ b ≤ a) le_antisymm_iff.symm

/-- A solution value: `none` models numpy `NaN`. -/
abbrev Val := Option ℚ

/-! ## Generic list helpers (index-based updates, medians, accessors) -/

/-- Helper for `setAt`: walk the list keeping a running index. -/
def setAtFrom (idxs : List ℕ) (v : ℚ) : ℕ → List ℚ → List ℚ
  | _, [] => []
  | i, x :: xs => (if i ∈ idxs then v else x) :: setAtFrom idxs v (i + 1) xs

/-- `xs[idxs] = v` (numpy fancy-index assignment on a 1-D array). -/
def setAt (xs : List ℚ) (idxs : List ℕ) (v : ℚ) : List ℚ :=
  setAtFrom idxs v 0 xs

/-- `xs[idxs] = 0.0`. -/
def zeroAt (xs : List ℚ) (idxs : List ℕ) : List ℚ :=
  setAt xs idxs 0

/-- `arr[:] = 0.0` on a 1-D slice: a zero list of the same length. -/
def zerosLike (xs : List ℚ) : List ℚ :=
  xs.map fun _ => 0

/-- Indices of entries satisfying a predicate (numpy `np.where(p(xs))` on a
1-D array). -/
def idxWhere (p : α → Bool) (xs : List α) : List ℕ :=
  (xs.enum.filter fun ix => p ix.2).map fun ix => ix.1

theorem setAtFrom_length (idxs : List ℕ) (v : ℚ) (k : ℕ) (xs : List ℚ) :
    (setAtFrom idxs v k xs).length = xs.length := by
  induction xs generalizing k with
  | nil => rfl
  | cons x xs ih => simp [setAtFrom, ih]

theorem setAt_length (xs : List ℚ) (idxs : List ℕ) (v : ℚ) :
    (setAt xs idxs v).length = xs.length := setAtFrom_length ..

theorem zeroAt_length (xs : List ℚ) (idxs : List ℕ) :
    (zeroAt xs idxs).length = xs.length := setAtFrom_length ..

/-- `getD` with default `1` is `0` only for in-range `0` entries, so any
branch of an `if` preserving that property preserves it. -/
theorem ite_getD_zero {c : Prop} [Decidable c] {a b : List ℚ} {i : ℕ}
    (ha : a.getD i 1 = 0) (hb : b.getD i 1 = 0) :
    (if c then a else b).getD i 1 = 0 := by
  split
  · exact ha
  · exact hb

theorem setAtFrom_getD (idxs : List ℕ) (v : ℚ) (k : ℕ) (xs : List ℚ) (i : ℕ) (d : ℚ) :
    (setAtFrom idxs v k xs).getD i d =
      if i < xs.length then (if k + i ∈ idxs then v else xs.getD i d) else d := by
  induction xs generalizing k i with
  | nil => simp [setAtFrom]
  | cons x xs ih =>
    cases i with
    | zero => simp [setAtFrom]
    | succ j =>
      simp only [setAtFrom, List.getD_cons_succ, List.length_cons]
      rw [ih]
      have hkj : k + 1 + j = k + (j + 1) := by omega
      simp [hkj, Nat.succ_lt_succ_iff]

theorem setAt_getD (xs : List ℚ) (idxs : List ℕ) (v : ℚ) (i : ℕ) (d : ℚ) :
    (setAt xs idxs v).getD i d =
      if i < xs.length then (if i ∈ idxs then v else xs.getD i d) else d := by
  simpa using setAtFrom_getD idxs v 0 xs i d

/-- `zeroAt` only turns entries to `0`: existing zeros survive. -/
theorem zeroAt_preserves_zero (xs : List ℚ) (idxs : List ℕ) (i : ℕ)
    (h : xs.getD i 1 = 0) : (zeroAt xs idxs).getD i 1 = 0 := by
  rw [zeroAt, setAt_getD]
  split
  · split
    · rfl
    · exact h
  · next hlen =>
    exfalso
    rw [List.getD_eq_default _ _ (by omega)] at h
    exact one_ne_zero h

theorem zerosLike_getD (xs : List ℚ) (i : ℕ) (h : i < xs.length) :
    (zerosLike xs).getD i 1 = 0 := by
  rw [zerosLike, List.getD_eq_getElem _ _ (by simpa using h)]
  simp

/-- A list all of whose entries are `0` is `zerosLike` of itself. -/
theorem all_zero_eq_zerosLike (xs : List ℚ) (h : ∀ x ∈ xs, x = 0) :
    xs = zerosLike xs := by
  induction xs with
  | nil => rfl
  | cons x xs ih =>
    simp only [zerosLike, List.map_cons]
    refine congrArg₂ _ (h x (by simp)) ?_
    exact ih fun y hy => h y (by simp [hy])

/-- `np.median` of a 1-D array (average of the two middle elements when the
length is even).  Only meaningful for nonempty input, like the numpy call it
models; callers guard emptiness. -/
def medianQ (xs : List ℚ) : ℚ :=
  let s := xs.mergeSort (fun a b => a ≤ b)
  if xs.length % 2 = 1 then s.getD (xs.length / 2) 0
  else (s.getD (xs.length / 2 - 1) 0 + s.getD (xs.length / 2) 0) / 2

/-- `np.nanmedian`: the median of the non-NaN entries; NaN (`none`) when all
entries are NaN. -/
def nanmedian (xs : List Val) : Val :=
  let fin := xs.filterMap id
  if fin.isEmpty then none else some (medianQ fin)

/-- Read a `[pol][point]` weight array; out-of-range reads default to `1`
(an unflagged weight), so that "this index is zero" pins the index in
range. -/
def wget2 (w : List (List ℚ)) (p i : ℕ) : ℚ :=
  (w.getD p []).getD i 1

/-- Read a `[pol][time][freq]` weight array; out-of-range defaults to `1`. -/
def wget3 (w : List (List (List ℚ))) (p t f : ℕ) : ℚ :=
  ((w.getD p []).getD t []).getD f 1

/-- Python's `str.lower()` on the ASCII identifiers that the engine
compares (`mode`, `telescope`): per-character lowercasing. -/
def toLowerStr (s : String) : String :=
  ⟨s.data.map Char.toLower⟩

/-! ## Oracles for the transcendental primitives

The engine calls a few real-valued library primitives that have no exact
rational counterpart.  They are abstracted as the fields below; all theorems
quantify over an arbitrary `Oracles` value. -/

/-- The two supported LOFAR bands of bandpass mode (source lines 305-324
and 341-354). -/
inductive Band
  | lba
  | hba_low
deriving DecidableEq

/-- The transcendental primitives used by `flagstation.py`, abstracted.  See
the module docstring for the quantification convention. -/
structure Oracles where
  /-- `np.log10 x` for the positive `x` at which the engine uses the result;
  at nonpositive or NaN inputs the source produces NaN or -inf there, but every
  such point carries weight `0` and its value is zeroed before use, so an
  arbitrary rational stands in. -/
  log10 : ℚ → ℚ
  /-- `np.sqrt x` for the nonnegative `x` the engine applies it to
  (bandpass mode applies it to `1/weight` at unflagged, hence nonzero,
  weights). -/
  sqrtQ : ℚ → ℚ
  /-- `10.0 ** x`. -/
  pow10 : ℚ → ℚ
  /-- The resid-mode phase mean
  `np.angle(np.nansum(w * np.exp(1j * v)) / (v.size * sum(w)))`
  (source line 85), as a function of the weight slice and the value slice. -/
  angleMean : List ℚ → List Val → ℚ
  /-- `normalize_phase` from `losoto.lib_operations`, which is not under
  `src/`.  Modelled from the spec: wraps a phase back into `(-π, π]`. -/
  normPhase : ℚ → ℚ
  /-- `scipy.optimize.curve_fit` of the band's bandpass model (initial
  coefficients, per-coefficient bounds, dogbox method) followed by the
  model evaluation `bandpass_function(freq, *popt)`, including the
  `RuntimeError` fallback to the initial-model curve (source lines
  330-336).  Arguments: the band (selecting model, initial coefficients
  and bounds), `freqs`, `log10(amps)`, `sigma`; result: the `bp_sp`
  curve. -/
  curveFit : Band → List ℚ → List ℚ → List ℚ → List ℚ

/-! ## Squared-comparison justification

The source thresholds `np.abs(x) > nSigma * min(maxStddev, sqrt(avg))`.
The embedding compares squares instead; this lemma shows over `ℝ` that the
two forms agree for the nonnegative parameters of the data model. -/

/-- `n * min m (√a) < |v|` iff `n^2 * min (m^2) a < v^2` for nonnegative
`n`, `m`, `a`: the squared comparison used by the embedded threshold tests
is exactly the source's comparison. -/
theorem sqrt_threshold_sq_iff (n m a v : ℝ) (hn : 0 ≤ n) (hm : 0 ≤ m) (ha : 0 ≤ a) :
    n * min m (Real.sqrt a) < |v| ↔ n ^ 2 * min (m ^ 2) a < v ^ 2 := by
  have hs : 0 ≤ Real.sqrt a := Real.sqrt_nonneg a
  have hts : (min m (Real.sqrt a)) ^ 2 = min (m ^ 2) a := by
    rcases le_total m (Real.sqrt a) with h | h
    · have h2 : m ^ 2 ≤ a := by
        have := pow_le_pow_left₀ hm h 2
        rwa [Real.sq_sqrt ha] at this
      rw [min_eq_left h, min_eq_left h2]
    · have h2 : a ≤ m ^ 2 := by
        have := pow_le_pow_left₀ hs h 2
        rwa [Real.sq_sqrt ha] at this
      rw [min_eq_right h, Real.sq_sqrt ha, min_eq_right h2]
  have hx : 0 ≤ n * min m (Real.sqrt a) := mul_nonneg hn (le_min hm hs)
  constructor
  · intro h
    have h2 := mul_self_lt_mul_self hx h
    calc n ^ 2 * min (m ^ 2) a = (n * min m (Real.sqrt a)) ^ 2 := by
          rw [mul_pow, hts]
      _ < |v| ^ 2 := by rw [sq, sq]; exact h2
      _ = v ^ 2 := sq_abs v
  · intro h
    by_contra hc
    push_neg at hc
    have h2 := pow_le_pow_left₀ (abs_nonneg v) hc 2
    rw [sq_abs, mul_pow, hts] at h2
    exact absurd (lt_of_lt_of_le h h2) (lt_irrefl _)

/-! ## The iterative fit-and-flag convergence loop

Both flaggers contain the same `while` loop (source lines 96-112 and
408-424):

    maxiter = 5
    niter = 0
    nflag = 0
    nflag_prev = -1
    while nflag != nflag_prev and niter < maxiter:
        <compute bad, and in bandpass mode stdev_all, from the current
         trial array>
        nflag = len(bad[0])
        if nflag == 0 or nflag == nsols_unflagged:
            break
        if niter > 0:
            nflag_prev = nflag
        <reset the trial array to the original and re-apply bad>
        niter += 1

The loop skeleton is embedded once, parametrized by the per-round
computation `roundFn` (returning the `bad` index list and, for the
bandpass flagger's later gate, the squared `stdev_all`) and by the
reset-and-apply step `reset`.  The two flaggers instantiate it below. -/

/-- Loop state.  `cur` is the trial array the round function reads
(`weights_copy` in resid mode, `sigma_div` in bandpass mode); `bad`,
`nflag`, `nflagPrev`, `niter` and `stdevAllSq` are the source's local
variables (`stdevAllSq` is the squared `stdev_all`).  `rounds` and
`history` are ghost instrumentation, not present in the source: the number
of executed loop bodies and the successive values of `nflag`, used to state
the termination claims. -/
structure LoopState where
  cur : List ℚ
  bad : List ℕ
  nflag : ℤ
  nflagPrev : ℤ
  niter : ℕ
  stdevAllSq : ℚ
  rounds : ℕ
  history : List ℤ

/-- One-or-more unfoldings of the `while` loop; `fuel` is an upper bound on
the remaining unfoldings, strictly larger than the possible number of
remaining iterations (each body execution that recurses increments
`niter`, and the loop condition requires `niter < 5`), so it never cuts a
run short when started with fuel `6`. -/
def clipLoopGo (roundFn : List ℚ → List ℕ × ℚ) (reset : List ℕ → List ℚ)
    (nsols : ℕ) : ℕ → LoopState → LoopState
  | 0, st => st
  | fuel + 1, st =>
    if st.nflag ≠ st.nflagPrev ∧ st.niter < 5 then
      let r := roundFn st.cur
      let bad := r.1
      let nflag : ℤ := bad.length
      if nflag = 0 ∨ nflag = (nsols : ℤ) then
        { st with
          bad := bad
          nflag := nflag
          stdevAllSq := r.2
          rounds := st.rounds + 1
          history := st.history ++ [nflag] }
      else
        clipLoopGo roundFn reset nsols fuel
          { cur := reset bad
            bad := bad
            nflag := nflag
            nflagPrev := if st.niter > 0 then nflag else st.nflagPrev
            niter := st.niter + 1
            stdevAllSq := r.2
            rounds := st.rounds + 1
            history := st.history ++ [nflag] }
    else st

/-- The loop's initial state (source lines 96-100 / 408-411). -/
def clipLoopInit (cur0 : List ℚ) : LoopState :=
  { cur := cur0
    bad := []
    nflag := 0
    nflagPrev := -1
    niter := 0
    stdevAllSq := 0
    rounds := 0
    history := [] }

/-- The full convergence loop. -/
def clipLoop (roundFn : List ℚ → List ℕ × ℚ) (reset : List ℕ → List ℚ)
    (nsols : ℕ) (cur0 : List ℚ) : LoopState :=
  clipLoopGo roundFn reset nsols 6 (clipLoopInit cur0)

/-- Once `nflag = nflag_prev` the `while` condition is false and the loop
returns its state unchanged. -/
theorem clipLoopGo_stop (f : List ℚ → List ℕ × ℚ) (r : List ℕ → List ℚ) (n : ℕ)
    (fuel : ℕ) (st : LoopState) (h : st.nflag = st.nflagPrev) :
    clipLoopGo f r n fuel st = st := by
  cases fuel with
  | zero => rfl
  | succ fuel => rw [clipLoopGo]; simp [h]

/-- From any state with `niter ≥ 1` the loop executes at most one more
body: that body either breaks, or assigns `nflag_prev := nflag` (the
`if niter > 0` guard is now true) so the next `while` check fails. -/
theorem clipLoopGo_rounds_niter_pos (f : List ℚ → List ℕ × ℚ) (r : List ℕ → List ℚ)
    (n : ℕ) (fuel : ℕ) (st : LoopState) (h : 0 < st.niter) :
    (clipLoopGo f r n fuel st).rounds ≤ st.rounds + 1 := by
  cases fuel with
  | zero => simp [clipLoopGo]
  | succ fuel =>
    rw [clipLoopGo]
    dsimp only
    split
    · split
      · simp
      · rw [clipLoopGo_stop]
        · simp
    · simp

/-- The loop never executes more than two bodies: round 1 runs with
`nflag_prev = -1`; if it does not break, round 2 runs with `niter = 1` and
therefore assigns `nflag_prev = nflag` immediately after recomputing
`nflag`, so the `while` condition fails at the next check no matter how the
flag counts evolved. -/
theorem clipLoop_rounds_le_two (roundFn : List ℚ → List ℕ × ℚ)
    (reset : List ℕ → List ℚ) (nsols : ℕ) (cur0 : List ℚ) :
    (clipLoop roundFn reset nsols cur0).rounds ≤ 2 := by
  rw [clipLoop]
  show (clipLoopGo roundFn reset nsols (5 + 1) (clipLoopInit cur0)).rounds ≤ 2
  rw [clipLoopGo]
  dsimp only [clipLoopInit]
  split
  · split
    · simp
    · exact le_trans (clipLoopGo_rounds_niter_pos _ _ _ _ _ (by simp)) (by simp)
  · simp

/-- A fortiori: the loop executes at most five bodies. -/
theorem clipLoop_rounds_le_five (roundFn : List ℚ → List ℕ × ℚ)
    (reset : List ℕ → List ℚ) (nsols : ℕ) (cur0 : List ℚ) :
    (clipLoop roundFn reset nsols cur0).rounds ≤ 5 :=
  le_trans (clipLoop_rounds_le_two roundFn reset nsols cur0) (by norm_num)

/-! ## Resid-mode flagger (`_flag_resid`, source lines 22-129) -/

/-- The solution type of the soltab (`soltype` parameter). -/
inductive SolType
  | phase
  | amplitude
deriving DecidableEq

/-- `bad_sols` test (source lines 68-71): NaN for phase; NaN or nonpositive
for amplitude. -/
def valIsBad (st : SolType) (v : Val) : Bool :=
  match st, v with
  | .phase, none => true
  | .phase, some _ => false
  | .amplitude, none => true
  | .amplitude, some x => decide (x ≤ 0)

/-- `bad_sols = np.where(...)` (source lines 68-71). -/
def badSolsIdx (st : SolType) (vals : List Val) : List ℕ :=
  idxWhere (valIsBad st) vals

/-- The amplitude-mode "mean" of source line 87:
`np.nansum(weights_orig * vals) / (vals.size * sum(weights_orig))`.
Note the denominator multiplies the sum of weights by the number of points;
a NaN value contributes `0` to the nansum (in numpy `w * NaN` is NaN even
for `w = 0` and `nansum` drops it). -/
def residAmpMean (w : List ℚ) (v : List Val) : ℚ :=
  ((w.zip v).map fun p =>
    match p.2 with
    | none => 0
    | some x => p.1 * x).sum / ((v.length : ℚ) * w.sum)

/-- The weighted arithmetic mean in the spec's words (claim C3): "sum of
weight·value divided by sum of weights".  This definition follows the
spec, not the source, and exists to be compared with `residAmpMean`. -/
def specWeightedArithMean (w : List ℚ) (v : List Val) : ℚ :=
  ((w.zip v).map fun p =>
    match p.2 with
    | none => 0
    | some x => p.1 * x).sum / w.sum

/-- `np.average(vals**2, weights=wc)` (source line 102). -/
def weightedAvgSq (vals wc : List ℚ) : ℚ :=
  ((wc.zip vals).map fun p => p.1 * p.2 ^ 2).sum / wc.sum

/-- One round's flag set (source lines 102-104):
`stdev = min(maxStddev, sqrt(average(vals**2, weights)))`,
`bad = np.where(np.abs(vals) > nSigma * stdev)`; the comparison is done in
squared form (see `sqrt_threshold_sq_iff`). -/
def residBadSet (valsFlagged : List ℚ) (nSigma maxStddev : ℚ) (wc : List ℚ) : List ℕ :=
  let stdevSq := min (maxStddev ^ 2) (weightedAvgSq valsFlagged wc)
  idxWhere (fun v => decide (nSigma ^ 2 * stdevSq < v ^ 2)) valsFlagged

/-- The resid-mode convergence loop (source lines 96-112): the trial array
is `weights_copy`, each round recomputes `bad` from it, and the reset step
is `weights_copy = weights_orig.copy(); weights_copy[bad] = 0`. -/
def residClipLoop (valsFlagged wOrig : List ℚ) (nSigma maxStddev : ℚ)
    (nsols : ℕ) : LoopState :=
  clipLoop
    (fun wc => (residBadSet valsFlagged nSigma maxStddev wc, weightedAvgSq valsFlagged wc))
    (fun bad => zeroAt wOrig bad) nsols wOrig

/-- `vals_flagged[flagged] = 0.0` (source line 92), dropping the `Option`
wrapper: every NaN entry is in `flagged` by construction (`bad_sols`
zeroed its weight), so the `getD 0` fallback at unflagged entries never
meets a `none`. -/
def zeroValAt (vs : List Val) (idxs : List ℕ) : List ℚ :=
  vs.enum.map fun iv => if iv.1 ∈ idxs then 0 else iv.2.getD 0

/-- The data the body of one `_flag_resid` polarization iteration builds
before its convergence loop (source lines 66-95): `wOrig` is the weight
slice after the `bad_sols` zeroing of line 72 (a view write, so it stands
even when the polarization is then skipped); `nsols` is
`nsols_unflagged`; `valsFlagged` the residual values entering the loop;
`valsOut` the final contents of the polarization's value slice (written
through views in amplitude mode: the in-place `log10` of line 81 and the
zeroing of line 92; a fresh array in phase mode, so `vals` unchanged).
The amplitude-mode `mean` of line 87 is computed but — exactly as in the
source — never subtracted from the values (only the phase branch of
lines 89-91 subtracts). -/
structure ResidPrep where
  wOrig : List ℚ
  valsFlagged : List ℚ
  valsOut : List Val
  nsols : ℕ

/-- Source lines 66-95 for one polarization; see `ResidPrep`. -/
def residPolPrep (o : Oracles) (st : SolType) (vals : List Val) (w : List ℚ) :
    ResidPrep :=
  let wOrig := zeroAt w (badSolsIdx st vals)
  let flagged := idxWhere (fun x => x == 0) wOrig
  let nsols := (idxWhere (fun x => x != 0) wOrig).length
  let vals2 := if st = .amplitude then vals.map (Option.map o.log10) else vals
  let mean :=
    match st with
    | .phase => o.angleMean wOrig vals2
    | .amplitude => residAmpMean wOrig vals2
  let vals3 :=
    if st = .phase then vals2.map (Option.map fun x => o.normPhase (x - mean)) else vals2
  let valsFlagged : List ℚ := zeroValAt vals3 flagged
  { wOrig := wOrig
    valsFlagged := valsFlagged
    valsOut := if st = .amplitude then valsFlagged.map some else vals
    nsols := nsols }

/-- The convergence loop of one `_flag_resid` polarization iteration,
run on the prepared data (source lines 96-112). -/
def residPolLoop (o : Oracles) (st : SolType) (nSigma maxStddev : ℚ)
    (vals : List Val) (w : List ℚ) : LoopState :=
  let pr := residPolPrep o st vals w
  residClipLoop pr.valsFlagged pr.wOrig nSigma maxStddev pr.nsols

/-- One polarization of `_flag_resid` (the body of the loop over `pol`,
source lines 65-127).  Input: this polarization's value slice and weight
slice (the `[time, freq]` plane flattened).  Output: the final contents
of the two slices.  Fully flagged polarizations are skipped right after
the `bad_sols` zeroing (lines 73-75), before the log/mean work;
`residPolPrep` computes eagerly, which is invisible here because all its
steps are pure and its results are unused on the skip path.  The gate of
lines 114-127 either zeroes the whole slice (high flagged fraction) or
commits the loop's final `weights_copy`. -/
def flagResidPol (o : Oracles) (st : SolType) (nSigma maxFF maxStddev : ℚ)
    (vals : List Val) (w : List ℚ) : List Val × List ℚ :=
  let pr := residPolPrep o st vals w
  if ∀ x ∈ pr.wOrig, x = 0 then (vals, pr.wOrig)
  else
    let loop := residPolLoop o st nSigma maxStddev vals w
    let wOut :=
      if maxFF < (loop.bad.length : ℚ) / (pr.nsols : ℚ) then zerosLike pr.wOrig
      else loop.cur
    (pr.valsOut, wOut)

/-- `_flag_resid` for one station (source lines 22-129): skip fully
flagged stations, else process each polarization independently.  Output:
the final value and weight slices of the station. -/
def _flag_resid (o : Oracles) (st : SolType) (nSigma maxFF maxStddev : ℚ)
    (vals : List (List Val)) (w : List (List ℚ)) :
    List (List Val) × List (List ℚ) :=
  if ∀ row ∈ w, ∀ x ∈ row, x = 0 then (vals, w)
  else
    let rs := (vals.zip w).map fun p => flagResidPol o st nSigma maxFF maxStddev p.1 p.2
    (rs.map Prod.fst, rs.map Prod.snd)

/-! ### Zero-weight preservation (resid mode) -/

/-- A property of the trial array that holds initially and after every
reset holds of the loop's final trial array. -/
theorem clipLoopGo_cur_prop (P : List ℚ → Prop) (f : List ℚ → List ℕ × ℚ)
    (r : List ℕ → List ℚ) (n fuel : ℕ) (st : LoopState)
    (h0 : P st.cur) (hr : ∀ bad, P (r bad)) :
    P (clipLoopGo f r n fuel st).cur := by
  induction fuel generalizing st with
  | zero => exact h0
  | succ fuel ih =>
    rw [clipLoopGo]
    dsimp only
    split
    · split
      · exact h0
      · exact ih _ (hr _)
    · exact h0

/-- The resid loop's final `weights_copy` keeps every zero of
`weights_orig`: it is either `weights_orig` itself or `weights_orig` with
further entries zeroed. -/
theorem residClipLoop_cur_preserves_zero (valsFlagged wOrig : List ℚ)
    (nSigma maxStddev : ℚ) (nsols : ℕ) (i : ℕ) (h : wOrig.getD i 1 = 0) :
    (residClipLoop valsFlagged wOrig nSigma maxStddev nsols).cur.getD i 1 = 0 :=
  clipLoopGo_cur_prop (fun c => c.getD i 1 = 0) _ _ _ _ _ h
    (fun bad => zeroAt_preserves_zero wOrig bad i h)

/-- Per-polarization zero preservation: `_flag_resid` only ever writes `0`
into the weight slice. -/
theorem flagResidPol_preserves_zero (o : Oracles) (st : SolType)
    (nSigma maxFF maxStddev : ℚ) (vals : List Val) (w : List ℚ) (i : ℕ)
    (h : w.getD i 1 = 0) :
    (flagResidPol o st nSigma maxFF maxStddev vals w).2.getD i 1 = 0 := by
  have hw : i < w.length := by
    by_contra hc
    push_neg at hc
    rw [List.getD_eq_default _ _ hc] at h
    exact one_ne_zero h
  have hOrig : (zeroAt w (badSolsIdx st vals)).getD i 1 = 0 :=
    zeroAt_preserves_zero _ _ _ h
  rw [flagResidPol]
  dsimp only
  split
  · exact hOrig
  · exact ite_getD_zero
      (zerosLike_getD _ _
        (by show i < (zeroAt w (badSolsIdx st vals)).length
            rw [zeroAt_length]; exact hw))
      (residClipLoop_cur_preserves_zero _ _ _ _ _ _ hOrig)

/-- Station-level zero preservation for `_flag_resid`. -/
theorem _flag_resid_preserves_zero (o : Oracles) (st : SolType)
    (nSigma maxFF maxStddev : ℚ) (vals : List (List Val)) (w : List (List ℚ))
    (hlen : vals.length = w.length) (p i : ℕ) (h : wget2 w p i = 0) :
    wget2 (_flag_resid o st nSigma maxFF maxStddev vals w).2 p i = 0 := by
  have hp : p < w.length := by
    by_contra hc
    push_neg at hc
    rw [wget2, List.getD_eq_default _ _ hc] at h
    simp at h
  have hwp : w.getD p [] = w[p] := List.getD_eq_getElem _ _ hp
  rw [wget2, hwp] at h
  rw [_flag_resid]
  dsimp only
  split
  · rw [wget2, hwp]
    exact h
  · have hzp : p < (vals.zip w).length := by
      rw [List.length_zip, hlen, min_self]
      exact hp
    have hb : p < (List.map Prod.snd
        ((vals.zip w).map fun q => flagResidPol o st nSigma maxFF maxStddev q.1 q.2)).length := by
      simpa using hzp
    have hpv : p < vals.length := by omega
    have heq : (List.map Prod.snd
        ((vals.zip w).map fun q => flagResidPol o st nSigma maxFF maxStddev q.1 q.2)).getD p []
        = (flagResidPol o st nSigma maxFF maxStddev vals[p] w[p]).2 := by
      rw [List.getD_eq_getElem _ _ hb, List.getElem_map, List.getElem_map, List.getElem_zip]
    show ((List.map Prod.snd
        ((vals.zip w).map fun q => flagResidPol o st nSigma maxFF maxStddev q.1 q.2)).getD p []).getD i 1 = 0
    rw [heq]
    exact flagResidPol_preserves_zero o st nSigma maxFF maxStddev _ _ i h

/-! ## Spline basis evaluator and band models (source lines 179-268) -/

/-- `_B(x, k, i, t, extrap, invert)` (source lines 179-196): Cox-de Boor
recursion.  At degree 0 the extrapolation flag forces the value to `-1`
when `invert` else `+1`; otherwise the basis is the indicator of
`t[i] <= x < t[i+1]`.  Degenerate (zero-length) knot intervals contribute
`0`.  Knot reads are `t.getD _ 0`; every call made from `_bspline` stays
within the knot vector, so the default is never read. -/
def _B (x : ℚ) (k i : ℕ) (t : List ℚ) (extrap invert : Bool) : ℚ :=
  match k with
  | 0 =>
    if extrap then (if invert then -1 else 1)
    else if t.getD i 0 ≤ x ∧ x < t.getD (i + 1) 0 then 1 else 0
  | k + 1 =>
    let c1 :=
      if t.getD (i + k + 1) 0 = t.getD i 0 then 0
      else (x - t.getD i 0) / (t.getD (i + k + 1) 0 - t.getD i 0) * _B x k i t extrap invert
    let c2 :=
      if t.getD (i + k + 2) 0 = t.getD (i + 1) 0 then 0
      else (t.getD (i + k + 2) 0 - x) / (t.getD (i + k + 2) 0 - t.getD (i + 1) 0) *
        _B x k (i + 1) t extrap invert
    c1 + c2

/-- The `extrap` list built by `_bspline` (source lines 203-208):
all-`False`, except the last entry when `x >= t[n]` and the first entry
when `x < t[k]`. -/
def bsplineExtrap (x : ℚ) (t : List ℚ) (n k : ℕ) : List Bool :=
  if x ≥ t.getD n 0 then (List.replicate n false).set (n - 1) true
  else if x < t.getD k 0 then (List.replicate n false).set 0 true
  else List.replicate n false

/-- The `invert` flag built by `_bspline` (source lines 202-208): it is
initialized `False`, and the below-span branch assigns `False` again
(source line 208 reads `invert = False`), so it is `false` for every
evaluation point — the `-1` branch of `_B` is unreachable from
`_bspline`. -/
def bsplineInvert (x : ℚ) (t : List ℚ) (n k : ℕ) : Bool :=
  if x ≥ t.getD n 0 then false
  else if x < t.getD k 0 then false
  else false

/-- `_bspline(x, t, c, k)` (source lines 199-209):
`sum(c[i] * _B(x, k, i, t, extrap[i], invert) for i in range(n))` with
`n = len(t) - k - 1`.  The source `assert (n >= k+1) and (len(c) >= n)`
holds at both call sites (`bandpass_model_asserts` below). -/
def _bspline (x : ℚ) (t c : List ℚ) (k : ℕ) : ℚ :=
  let n := t.length - k - 1
  let invert := bsplineInvert x t n k
  let extrap := bsplineExtrap x t n k
  (((List.range n).zip extrap).map fun ie =>
    c.getD ie.1 0 * _B x k ie.1 t ie.2 invert).sum

/-- The LBA knot vector (source lines 233-236). -/
def knotsLBA : List ℚ :=
  [30003357, 30003357, 30003357, 30003357, 40000000, 50000000, 55000000,
   56000000, 60000000, 62000000, 63000000, 64000000, 70000000, 77610779,
   77610779, 77610779, 77610779]

/-- The HBA-low knot vector (source lines 263-266). -/
def knotsHBAlow : List ℚ :=
  [115000000, 115000000, 115000000, 115000000, 130000000, 138000000,
   148000000, 160000000, 168000000, 178000000, 190000000, 190000000,
   190000000, 190000000]

/-- The per-band knot vector. -/
def bandKnots : Band → List ℚ
  | .lba => knotsLBA
  | .hba_low => knotsHBAlow

/-- `_bandpass_LBA(freq, c1, ..., c13)` (source lines 212-238): the
degree-3 spline model on the LBA knots; the thirteen scalar coefficient
arguments of the source are taken as one list. -/
def _bandpass_LBA (freq : List ℚ) (c : List ℚ) : List ℚ :=
  freq.map fun f => _bspline f knotsLBA c 3

/-- `_bandpass_HBA_low(freq, c1, ..., c10)` (source lines 241-268). -/
def _bandpass_HBA_low (freq : List ℚ) (c : List ℚ) : List ℚ :=
  freq.map fun f => _bspline f knotsHBAlow c 3

/-- The per-band initial coefficients (source lines 307-309 and 314-317). -/
def initCoeffs : Band → List ℚ
  | .hba_low =>
      [-0.01460369, 0.05062699, 0.02827004, 0.03738518, -0.05729109,
       0.02303295, -0.03550487, -0.0803113, -0.2394929, -0.358301]
  | .lba =>
      [-0.22654016, -0.1950495, -0.07763014, 0.10002095, 0.32797671,
       0.46900048, 0.47155583, 0.31945897, 0.29072278, 0.08064795,
       -0.15761538, -0.36020451, -0.51163338]

/-- The per-band lower bound deltas (source lines 310 and 318-319); they
feed the bounded solver abstracted by `Oracles.curveFit`. -/
def boundsDeltasLower : Band → List ℚ
  | .hba_low => [0.06, 0.05, 0.04, 0.04, 0.04, 0.04, 0.1, 0.1, 0.2, 0.5]
  | .lba =>
      [0.25, 0.2, 0.05, 0.05, 0.05, 0.05, 0.08, 0.05, 0.08, 0.15, 0.15,
       0.15, 0.15]

/-- The per-band upper bound deltas (source lines 311 and 320-321). -/
def boundsDeltasUpper : Band → List ℚ
  | .hba_low => [0.06, 0.1, 0.1, 0.1, 0.04, 0.04, 0.04, 0.04, 0.05, 0.06]
  | .lba =>
      [0.25, 0.2, 0.05, 0.05, 0.05, 0.05, 0.08, 0.05, 0.08, 0.15, 0.15,
       0.15, 0.15]

/-- The `_bspline` assertion `n >= k+1 and len(c) >= n` holds for both
band models at degree 3 with the initial coefficient vectors. -/
theorem bandpass_model_asserts :
    (knotsLBA.length - 3 - 1 ≥ 3 + 1 ∧ (initCoeffs .lba).length ≥ knotsLBA.length - 3 - 1) ∧
    (knotsHBAlow.length - 3 - 1 ≥ 3 + 1 ∧
      (initCoeffs .hba_low).length ≥ knotsHBAlow.length - 3 - 1) := by
  constructor <;> exact ⟨by decide, by decide⟩

/-- `_fit_bandpass(freq, logamp, sigma, band, do_fit)` (source lines
271-338).  With `do_fit=False` it evaluates the band model at the initial
coefficients; with `do_fit=True` it runs the bounded solver, abstracted by
`Oracles.curveFit` (which also covers the `RuntimeError` fallback).  The
best-fit parameter vector returned by the source is dropped: no caller
uses it.  The unsupported-band `sys.exit(1)` branch (lines 322-324) is
unreachable here because `Band` is a closed enum and both flaggers pass a
member. -/
def _fit_bandpass (o : Oracles) (band : Band) (freqs logamp sigma : List ℚ)
    (doFit : Bool) : List ℚ :=
  if doFit then o.curveFit band freqs logamp sigma
  else
    match band with
    | .hba_low => _bandpass_HBA_low freqs (initCoeffs .hba_low)
    | .lba => _bandpass_LBA freqs (initCoeffs .lba)

/-! ## Bandpass-mode flagger (`_flag_bandpass`, source lines 132-461) -/

/-- `amps_div /= median_val` elementwise: division of a possibly-NaN value
by the possibly-NaN median.  A zero divisor yields a non-finite float in
numpy; it is mapped to `none` (non-finite) here. -/
def divVal (a b : Val) : Val :=
  match a, b with
  | some x, some y => if y = 0 then none else some (x / y)
  | _, _ => none

/-- Column `f` of a `[time][freq]` value array. -/
def colV (xss : List (List Val)) (f : ℕ) : List Val :=
  xss.map fun row => row.getD f none

/-- Column `f` of a `[time][freq]` rational array. -/
def colQ (xss : List (List ℚ)) (f : ℕ) : List ℚ :=
  xss.map fun row => row.getD f 0

/-- `weights[:, :, pol] = 0.0` on a `[time][freq]` slice. -/
def zeros2 (w : List (List ℚ)) : List (List ℚ) :=
  w.map zerosLike

/-- The data prepared for one polarization's bandpass fit (source lines
366-372 restricted to one polarization, plus lines 381-405):
`sigmaOrig` is `sigma_orig`, `sigmaInit` the `sigma_div` entering the
loop, `la` the `np.log10(amps_div)` the loop reads (constant across
rounds, since only `sigma_div` changes), and `nsols` is
`nsols_unflagged`. -/
structure BpPrep where
  sigmaOrig : List ℚ
  sigmaInit : List ℚ
  la : List ℚ
  nsols : ℕ

/-- Lines 366-372 and 381-405 for one polarization.  Steps: flag where the
weight is zero or the amplitude NaN; `sigma = sqrt(1/weights)` with `1e8`
at flagged entries; median over time of amplitudes (NaN-aware) and of
sigma; divide by the median of medians; replace NaN medians by amplitude
`1` and sigma `1e8`, then nonpositive medians the same way; evaluate the
unfitted model, remove the median model/data offset, and pre-flag points
deviating from the model by more than `0.2` in log10 space. -/
def bpPolPrep (o : Oracles) (band : Band) (freqs : List ℚ)
    (amps : List (List Val)) (w : List (List ℚ)) : BpPrep :=
  let nf := freqs.length
  let ampsFlagged : List (List Val) :=
    (amps.zip w).map fun rows =>
      (rows.1.zip rows.2).map fun q => if q.2 = 0 ∨ q.1.isNone then none else q.1
  let sigma : List (List ℚ) :=
    (amps.zip w).map fun rows =>
      (rows.1.zip rows.2).map fun q =>
        if q.2 = 0 ∨ q.1.isNone then 100000000 else o.sqrtQ (1 / q.2)
  let ampsDiv0 : List Val := (List.range nf).map fun f => nanmedian (colV ampsFlagged f)
  let medianVal := nanmedian ampsDiv0
  let ampsDiv1 := ampsDiv0.map fun a => divVal a medianVal
  let sigmaDiv0 : List ℚ := (List.range nf).map fun f => medianQ (colQ sigma f)
  let nsols := (ampsDiv1.filter fun a => a.isSome).length
  let medianFlagged := idxWhere (fun a : Val => a.isNone) ampsDiv1
  let ampsDiv2 : List ℚ := ampsDiv1.map fun a => a.getD 1
  let sigmaDiv1 := setAt sigmaDiv0 medianFlagged 100000000
  let medianFlagged2 := idxWhere (fun q : ℚ => decide (q ≤ 0)) ampsDiv2
  let ampsDiv3 := setAt ampsDiv2 medianFlagged2 1
  let sigmaDiv2 := setAt sigmaDiv1 medianFlagged2 100000000
  let bp0 := _fit_bandpass o band freqs (ampsDiv3.map o.log10) sigmaDiv2 false
  let normval := medianQ (List.zipWith (fun la b => la - b) (ampsDiv3.map o.log10) bp0)
  let ampsDiv4 := ampsDiv3.map fun a => a / o.pow10 normval
  let la := ampsDiv4.map o.log10
  let badPre := idxWhere (fun d : ℚ => decide (|d| > 0.2))
    (List.zipWith (fun b l => b - l) bp0 la)
  { sigmaOrig := sigmaDiv0
    sigmaInit := setAt sigmaDiv2 badPre 100000000
    la := la
    nsols := nsols }

/-- One round of the bandpass loop (source lines 413-417): fit the model
through the solver, compute the squared weighted RMS of the model/data
residual with weights `(1/sigma)^2`, and flag residuals exceeding
`nSigma * min(maxStddev, stdev_all)` (squared comparison, see
`sqrt_threshold_sq_iff`). -/
def bpRound (o : Oracles) (band : Band) (freqs la : List ℚ)
    (nSigma maxStddev : ℚ) (sd : List ℚ) : List ℕ × ℚ :=
  let bp := _fit_bandpass o band freqs la sd true
  let resid : List ℚ := List.zipWith (fun b l => b - l) bp la
  let wts : List ℚ := sd.map fun s => (1 / s) ^ 2
  let stdevAllSq : ℚ := weightedAvgSq resid wts
  let stdevSq : ℚ := min (maxStddev ^ 2) stdevAllSq
  (idxWhere (fun d : ℚ => decide (nSigma ^ 2 * stdevSq < d ^ 2)) resid, stdevAllSq)

/-- The bandpass convergence loop (source lines 408-424): trial array
`sigma_div`, reset step `sigma_div = sigma_orig.copy(); sigma_div[bad] =
1e8`. -/
def bpClipLoop (o : Oracles) (band : Band) (freqs la sigmaOrig : List ℚ)
    (nSigma maxStddev : ℚ) (nsols : ℕ) (sigmaInit : List ℚ) : LoopState :=
  clipLoop (bpRound o band freqs la nSigma maxStddev)
    (fun bad => setAt sigmaOrig bad 100000000) nsols sigmaInit

/-- The extreme-median gate (source lines 450-459): `median_val` is the
NaN-aware median of the original amplitudes at the positions the (already
column-masked) weights leave unflagged; if it falls outside
`[median_min, median_max]` the whole polarization is zeroed, otherwise
the masked weights are committed.  A NaN median (`none`) compares false
in numpy, so the masked weights are kept. -/
def medianGate (medianMin medianMax : ℚ) (mv : Val)
    (w2 zeroed : List (List ℚ)) : List (List ℚ) :=
  match mv with
  | none => w2
  | some v => if v < medianMin ∨ v > medianMax then zeroed else w2

/-- The convergence loop of one `_flag_bandpass` polarization iteration,
run on the prepared data (source lines 408-424). -/
def bpPolLoop (o : Oracles) (band : Band) (freqs : List ℚ)
    (nSigma maxStddev : ℚ) (amps : List (List Val)) (w : List (List ℚ)) :
    LoopState :=
  let pr := bpPolPrep o band freqs amps w
  bpClipLoop o band freqs pr.la pr.sigmaOrig nSigma maxStddev pr.nsols pr.sigmaInit

/-- One polarization of `_flag_bandpass` (source lines 376-459): skip if
fully flagged; prepare, loop, then the three gates in order — high final
`stdev_all` (line 435, compared in squared form), high flagged fraction
(line 440), and, after applying the per-frequency mask `sigma_div > 1e3`
to all time rows (lines 446-449), an extreme median of the remaining
unflagged amplitudes (line 451).  Returns the polarization's weight
slice. -/
def flagBandpassPol (o : Oracles) (band : Band) (medianMin medianMax : ℚ)
    (freqs : List ℚ) (nSigma maxFF maxStddev : ℚ)
    (amps : List (List Val)) (w : List (List ℚ)) : List (List ℚ) :=
  if ∀ row ∈ w, ∀ x ∈ row, x = 0 then w
  else
    let pr := bpPolPrep o band freqs amps w
    let loop := bpPolLoop o band freqs nSigma maxStddev amps w
    if nSigma ^ 2 * maxStddev ^ 2 < loop.stdevAllSq then zeros2 w
    else if maxFF < (loop.bad.length : ℚ) / (pr.nsols : ℚ) then zeros2 w
    else
      let flaggedCols := idxWhere (fun s : ℚ => decide (s > 1000)) loop.cur
      let w2 := w.map fun row => setAt row flaggedCols 0
      let medianVal2 := nanmedian
        (((amps.zip w2).map fun p =>
          (p.1.zip p.2).filterMap fun q => if q.2 > 0 then some q.1 else none).flatten)
      medianGate medianMin medianMax medianVal2 w2 (zeros2 w)

/-- The per-station body of `_flag_bandpass` after the telescope/band
check (source lines 360-461): skip fully flagged stations (lines
360-363), else process each polarization. -/
def flagBandpassBody (o : Oracles) (band : Band) (medianMin medianMax : ℚ)
    (freqs : List ℚ) (nSigma maxFF maxStddev : ℚ)
    (amps : List (List (List Val))) (w : List (List (List ℚ))) :
    List (List (List ℚ)) :=
  if ∀ pol ∈ w, ∀ row ∈ pol, ∀ x ∈ row, x = 0 then w
  else
    (amps.zip w).map fun p =>
      flagBandpassPol o band medianMin medianMax freqs nSigma maxFF maxStddev p.1 p.2

/-- `_flag_bandpass` for one station (source lines 132-461).  The
telescope check (lines 340-358) runs first: an unsupported telescope logs
an error, puts the *unchanged* weights on the result queue and returns
(the worker's return code `1` is ignored by the runner), modelled as
`.ok w`; a median frequency outside both supported bands calls
`sys.exit(1)`, modelled as `.error 1` (the worker process exits with
status 1 and puts nothing).  Then fully flagged stations are skipped and
each polarization is processed independently. -/
def _flag_bandpass (o : Oracles) (freqs : List ℚ) (telescope : String)
    (nSigma maxFF maxStddev : ℚ)
    (amps : List (List (List Val))) (w : List (List (List ℚ))) :
    Except ℕ (List (List (List ℚ))) :=
  if toLowerStr telescope = "lofar" then
    if medianQ freqs < 180000000 ∧ medianQ freqs > 110000000 then
      .ok (flagBandpassBody o .hba_low 50 200 freqs nSigma maxFF maxStddev amps w)
    else if medianQ freqs < 90000000 then
      .ok (flagBandpassBody o .lba 50 200 freqs nSigma maxFF maxStddev amps w)
    else .error 1
  else .ok w

/-! ### Zero-weight preservation (bandpass mode) -/

theorem ite_wget2_zero {c : Prop} [Decidable c] {a b : List (List ℚ)} {t f : ℕ}
    (ha : wget2 a t f = 0) (hb : wget2 b t f = 0) :
    wget2 (if c then a else b) t f = 0 := by
  split
  · exact ha
  · exact hb

theorem zeros2_preserves_zero (w : List (List ℚ)) (t f : ℕ) (h : wget2 w t f = 0) :
    wget2 (zeros2 w) t f = 0 := by
  have ht : t < w.length := by
    by_contra hc
    push_neg at hc
    rw [wget2, List.getD_eq_default _ _ hc] at h
    simp at h
  have hrow : w.getD t [] = w[t] := List.getD_eq_getElem _ _ ht
  rw [wget2, hrow] at h
  have hf : f < w[t].length := by
    by_contra hc
    push_neg at hc
    rw [List.getD_eq_default _ _ hc] at h
    exact one_ne_zero h
  rw [wget2, zeros2]
  have hm : (w.map zerosLike).getD t [] = zerosLike w[t] := by
    rw [List.getD_eq_getElem _ _ (by simpa using ht), List.getElem_map]
  rw [hm]
  exact zerosLike_getD _ _ hf

theorem mapSetAt_preserves_zero (w : List (List ℚ)) (cols : List ℕ) (t f : ℕ)
    (h : wget2 w t f = 0) :
    wget2 (w.map fun row => setAt row cols 0) t f = 0 := by
  have ht : t < w.length := by
    by_contra hc
    push_neg at hc
    rw [wget2, List.getD_eq_default _ _ hc] at h
    simp at h
  have hrow : w.getD t [] = w[t] := List.getD_eq_getElem _ _ ht
  rw [wget2, hrow] at h
  rw [wget2]
  have hm : (w.map fun row => setAt row cols 0).getD t [] = setAt w[t] cols 0 := by
    rw [List.getD_eq_getElem _ _ (by simpa using ht), List.getElem_map]
  rw [hm]
  exact zeroAt_preserves_zero _ _ _ h

theorem medianGate_preserves_zero (mn mx : ℚ) (mv : Val)
    (w2 zeroed : List (List ℚ)) (t f : ℕ)
    (ha : wget2 w2 t f = 0) (hb : wget2 zeroed t f = 0) :
    wget2 (medianGate mn mx mv w2 zeroed) t f = 0 := by
  cases mv with
  | none => exact ha
  | some v =>
    rw [medianGate]
    exact ite_wget2_zero hb ha

/-- Per-polarization zero preservation: `_flag_bandpass` only ever writes
`0` into the weight slice. -/
theorem flagBandpassPol_preserves_zero (o : Oracles) (band : Band)
    (mn mx : ℚ) (freqs : List ℚ) (nSigma maxFF maxStddev : ℚ)
    (amps : List (List Val)) (w : List (List ℚ)) (t f : ℕ)
    (h : wget2 w t f = 0) :
    wget2 (flagBandpassPol o band mn mx freqs nSigma maxFF maxStddev amps w) t f = 0 := by
  rw [flagBandpassPol]
  dsimp only
  split
  · exact h
  · exact ite_wget2_zero (zeros2_preserves_zero _ _ _ h)
      (ite_wget2_zero (zeros2_preserves_zero _ _ _ h)
        (medianGate_preserves_zero _ _ _ _ _ _ _
          (mapSetAt_preserves_zero _ _ _ _ h)
          (zeros2_preserves_zero _ _ _ h)))

/-- Station-body zero preservation for `_flag_bandpass`. -/
theorem flagBandpassBody_preserves_zero (o : Oracles) (band : Band)
    (mn mx : ℚ) (freqs : List ℚ) (nSigma maxFF maxStddev : ℚ)
    (amps : List (List (List Val))) (w : List (List (List ℚ)))
    (hlen : amps.length = w.length) (p t f : ℕ) (h : wget3 w p t f = 0) :
    wget3 (flagBandpassBody o band mn mx freqs nSigma maxFF maxStddev amps w) p t f = 0 := by
  have hp : p < w.length := by
    by_contra hc
    push_neg at hc
    rw [wget3, List.getD_eq_default _ _ hc] at h
    simp at h
  have hwp : w.getD p [] = w[p] := List.getD_eq_getElem _ _ hp
  rw [wget3, hwp] at h
  rw [flagBandpassBody]
  split
  · rw [wget3, hwp]
    exact h
  · have hzp : p < (amps.zip w).length := by
      rw [List.length_zip, hlen, min_self]
      exact hp
    have hpv : p < amps.length := by omega
    have heq : (((amps.zip w).map fun q =>
        flagBandpassPol o band mn mx freqs nSigma maxFF maxStddev q.1 q.2)).getD p []
        = flagBandpassPol o band mn mx freqs nSigma maxFF maxStddev amps[p] w[p] := by
      rw [List.getD_eq_getElem _ _ (by simpa using hzp), List.getElem_map, List.getElem_zip]
    show (((((amps.zip w).map fun q =>
        flagBandpassPol o band mn mx freqs nSigma maxFF maxStddev q.1 q.2)).getD p []).getD t
        []).getD f 1 = 0
    rw [heq]
    exact flagBandpassPol_preserves_zero o band mn mx freqs nSigma maxFF maxStddev _ _ t f h

/-- Station-level zero preservation for `_flag_bandpass` whenever the
worker returns a weight array. -/
theorem _flag_bandpass_preserves_zero (o : Oracles) (freqs : List ℚ)
    (telescope : String) (nSigma maxFF maxStddev : ℚ)
    (amps : List (List (List Val))) (w w' : List (List (List ℚ)))
    (hok : _flag_bandpass o freqs telescope nSigma maxFF maxStddev amps w = .ok w')
    (hlen : amps.length = w.length) (p t f : ℕ) (h : wget3 w p t f = 0) :
    wget3 w' p t f = 0 := by
  rw [_flag_bandpass] at hok
  split at hok
  · split at hok
    · cases hok
      exact flagBandpassBody_preserves_zero o _ _ _ freqs nSigma maxFF maxStddev
        amps w hlen p t f h
    · split at hok
      · cases hok
        exact flagBandpassBody_preserves_zero o _ _ _ freqs nSigma maxFF maxStddev
          amps w hlen p t f h
      · exact absurd hok (by simp)
  · cases hok
    exact h

/-! ## The public operation `run` (source lines 464-606) -/

/-- One station's solution and weight data in canonical order, re-indexed
`[pol][time][freq]` (see the module docstring). -/
structure StationData where
  vals : List (List (List Val))
  weights : List (List (List ℚ))

/-- The NaN pre-flagging of `run` (source lines 524-526): zero the weight
wherever the solution is NaN, before any task runs. -/
def preZeroStation (sd : StationData) : List (List (List ℚ)) :=
  (sd.vals.zip sd.weights).map fun p =>
    (p.1.zip p.2).map fun q =>
      (q.1.zip q.2).map fun r => if r.1.isNone then 0 else r.2

/-- Flatten each polarization's `[time][freq]` plane into one list (resid
mode processes the plane pointwise; the source itself flattens for its
reductions). -/
def flattenPols (x : List (List (List α))) : List (List α) :=
  x.map List.flatten

/-- Split a flat list back into rows with the lengths of a template: the
inverse of `List.flatten` for matching shapes, modelling that the source
writes the resid result back through the 2-D view. -/
def reshapeRows : List (List ℚ) → List ℚ → List (List ℚ)
  | [], _ => []
  | row :: rows, flat => flat.take row.length :: reshapeRows rows (flat.drop row.length)

/-- Per-polarization `reshapeRows`. -/
def reshapePols (template : List (List (List ℚ))) (flat : List (List ℚ)) :
    List (List (List ℚ)) :=
  (template.zip flat).map fun p => reshapeRows p.1 p.2

/-- The result of `run`: `.error n` models `return n` with nothing
written; `.ok ws` models a completed run — the weight array `ws` (indexed
by station) is written back via `soltab.setValues` and the operation
returns `0`. -/
abbrev RunResult := Except ℕ (List (List (List (List ℚ))))

/-- The `run` operation (source lines 464-606), for the engine boundary
described by the spec: the soltab storage layer (axis discovery and
reordering, history records, the optional flag-export step) is an
external collaborator, so `run` receives the already reordered
per-station data and returns the weight array it would write.

The parallel runner `multiprocManager` is in `losoto.lib_operations`,
which is not under `src/`.  Modelled from the spec: one independent task
per antenna, results keyed by antenna index and merged after all tasks
complete, and a failed task must leave its antenna's weights unchanged
while the run continues (spec sections 4.6 and 7); a task failure is a
worker that returned no result (`.error`), i.e. the out-of-band
`sys.exit(1)` path.

Faithful details: the mode guard lowercases (`mode.lower() not in
['bandpass', 'resid']`, line 501) but the dispatch compares `mode ==
'bandpass'` exactly (line 528); bandpass mode requires an amplitude
soltab (lines 529-532) and passes the literal `maxStddev = 0.01` (line
538); resid mode requires a phase or amplitude soltab and selects
`maxStddev = 0.1` (phase, radians) or `0.02` (amplitude, log10) at lines
553-556.  `refAnt`, `soltabExport` and `ncpu` are accepted and do not
influence the produced weights. -/
def run (o : Oracles) (mode : String) (maxFlaggedFraction nSigma : ℚ)
    (telescope : String) (refAnt soltabExport : String) (ncpu : ℕ)
    (solType : String) (freqs : List ℚ) (data : List StationData) : RunResult :=
  if ¬(toLowerStr mode = "bandpass" ∨ toLowerStr mode = "resid") then .error 1
  else if mode = "bandpass" then
    if solType ≠ "amplitude" then .error 1
    else .ok (data.map fun sd =>
      match _flag_bandpass o freqs telescope nSigma maxFlaggedFraction (1/100)
          sd.vals (preZeroStation sd) with
      | .ok w' => w'
      | .error _ => preZeroStation sd)
  else if ¬(solType = "phase" ∨ solType = "amplitude") then .error 1
  else
    let maxStddev : ℚ := if solType = "phase" then 1/10 else 1/50
    .ok (data.map fun sd =>
      reshapePols (preZeroStation sd)
        ((_flag_resid o (if solType = "phase" then .phase else .amplitude)
          nSigma maxFlaggedFraction maxStddev
          (flattenPols sd.vals) (flattenPols (preZeroStation sd))).2))

/-! ## Further structural lemmas used by the claims -/

theorem zerosLike_congr_length {a b : List ℚ} (h : a.length = b.length) :
    zerosLike a = zerosLike b := by
  induction a generalizing b with
  | nil => cases b with
    | nil => rfl
    | cons y ys => simp at h
  | cons x xs ih =>
    cases b with
    | nil => simp at h
    | cons y ys =>
      simp only [zerosLike, List.map_cons]
      exact congrArg _ (ih (by simpa using h))

/-- A 2-D slice all of whose entries are `0` equals its zeroed form. -/
theorem all_zero_eq_zeros2 (w : List (List ℚ)) (h : ∀ row ∈ w, ∀ x ∈ row, x = 0) :
    w = zeros2 w := by
  induction w with
  | nil => rfl
  | cons row rows ih =>
    simp only [zeros2, List.map_cons]
    refine congrArg₂ _ (all_zero_eq_zerosLike row (h row (by simp))) ?_
    exact ih fun r hr x hx => h r (by simp [hr]) x hx

theorem _flag_resid_snd_length (o : Oracles) (st : SolType)
    (nSigma maxFF maxStddev : ℚ) (vals : List (List Val)) (w : List (List ℚ))
    (hlen : vals.length = w.length) :
    (_flag_resid o st nSigma maxFF maxStddev vals w).2.length = w.length := by
  rw [_flag_resid]
  split
  · rfl
  · simp [hlen]

theorem flagBandpassBody_length (o : Oracles) (band : Band) (mn mx : ℚ)
    (freqs : List ℚ) (nSigma maxFF maxStddev : ℚ)
    (amps : List (List (List Val))) (w : List (List (List ℚ)))
    (hlen : amps.length = w.length) :
    (flagBandpassBody o band mn mx freqs nSigma maxFF maxStddev amps w).length
      = w.length := by
  rw [flagBandpassBody]
  split
  · rfl
  · simp [hlen]

theorem _flag_bandpass_ok_length (o : Oracles) (freqs : List ℚ)
    (telescope : String) (nSigma maxFF maxStddev : ℚ)
    (amps : List (List (List Val))) (w w' : List (List (List ℚ)))
    (hok : _flag_bandpass o freqs telescope nSigma maxFF maxStddev amps w = .ok w')
    (hlen : amps.length = w.length) : w'.length = w.length := by
  rw [_flag_bandpass] at hok
  split at hok
  · split at hok
    · cases hok
      exact flagBandpassBody_length o _ _ _ freqs nSigma maxFF maxStddev amps w hlen
    · split at hok
      · cases hok
        exact flagBandpassBody_length o _ _ _ freqs nSigma maxFF maxStddev amps w hlen
      · exact absurd hok (by simp)
  · cases hok
    rfl

/-- The value component of a per-polarization map, when the shapes agree,
recovers the input value slices whenever the per-polarization function
returns its value slice unchanged. -/
theorem zip_map_fst (vals : List (List Val)) (w : List (List ℚ))
    (g : List Val → List ℚ → List Val × List ℚ)
    (hg : ∀ a b, (g a b).1 = a) (hlen : vals.length = w.length) :
    ((vals.zip w).map fun p => g p.1 p.2).map Prod.fst = vals := by
  induction vals generalizing w with
  | nil => simp
  | cons a as ih =>
    cases w with
    | nil => simp at hlen
    | cons b bs =>
      simp only [List.zip_cons_cons, List.map_cons, hg]
      exact congrArg _ (ih bs (by simpa using hlen))

/-- A phase-mode `_flag_resid` polarization iteration returns the value
slice unchanged: the phase path never writes through the `vals` view
(`vals_flagged` is rebound to the fresh array `normalize_phase(vals -
mean)` before the flagged entries are zeroed). -/
theorem flagResidPol_phase_fst (o : Oracles) (nSigma maxFF maxStddev : ℚ)
    (vals : List Val) (w : List ℚ) :
    (flagResidPol o .phase nSigma maxFF maxStddev vals w).1 = vals := by
  rw [flagResidPol]
  split
  · rfl
  · rfl

/-! ## Concrete instantiations used by witnesses and counterexamples

Each oracle record is documented with the points at which the run it is
used for evaluates it; on those points it agrees with the real function
it stands for, except where the stated fact provably does not depend on
the value (see the module docstring). -/

/-- A default oracle pack for runs that never consult the oracles on a
value-relevant path: phase runs with symmetric data (the circular mean of
the values used is `0` and `normalize_phase` is the identity on `(-π, π]`),
and bandpass runs whose stated facts do not depend on the curve values. -/
def oraclesTrivial : Oracles :=
  { log10 := fun _ => 0
    sqrtQ := fun _ => 1
    pow10 := fun _ => 1
    angleMean := fun _ _ => 0
    normPhase := id
    curveFit := fun _ _ _ _ => [] }

/-- `np.log10` restricted to the powers of ten `1000, 100, 10, 1`
appearing in the C7 counterexample and the C8 witness (exact values,
including `log10 1 = 0` through the final branch). -/
def log10Pow : ℚ → ℚ := fun q =>
  if q = 1000 then 3
  else if q = 100 then 2
  else if q = 10 then 1
  else 0

/-- Oracles for the amplitude-resid runs on powers of ten. -/
def oraclesPow : Oracles :=
  { oraclesTrivial with log10 := log10Pow }

/-- `np.log10` at `10` and `1000` (exact values), for the C3 evaluation. -/
def oraclesLog13 : Oracles :=
  { oraclesTrivial with
    log10 := fun q => if q = 10 then 1 else if q = 1000 then 3 else 0 }

/-- `np.log10 10 = 1` (exact), for the C9 counterexample. -/
def oraclesLog10Ten : Oracles :=
  { oraclesTrivial with log10 := fun q => if q = 10 then 1 else 0 }

/-- Bandpass oracles for the C8 witness: `sqrt(1/1) = 1` (exact); the
solver oracle returns a fixed curve `[10, 10, 0, 0]` (a legitimate
instantiation of the abstract bounded solver); `log10` and `10**x` values
do not influence the witnessed fact (the flagged set depends only on the
residual `bp - log10(amps_div)`, and the pre-pass marks are reset before
the final round). -/
def oraclesBp : Oracles :=
  { oraclesTrivial with curveFit := fun _ _ _ _ => [10, 10, 0, 0] }

/-! ## The claims -/

/-- C5: For every input, the internal convergence loop of either flagger
performs at most 5 rounds of fitting/flagging.  (The `while` condition
requires `niter < maxiter = 5` and every non-breaking round increments
`niter`; in fact at most two rounds ever execute, see C4.) -/
theorem C5_loop_at_most_five_rounds :
    (∀ (valsFlagged wOrig : List ℚ) (nSigma maxStddev : ℚ) (nsols : ℕ),
      (residClipLoop valsFlagged wOrig nSigma maxStddev nsols).rounds ≤ 5) ∧
    (∀ (o : Oracles) (band : Band) (freqs la sigmaOrig : List ℚ)
      (nSigma maxStddev : ℚ) (nsols : ℕ) (sigmaInit : List ℚ),
      (bpClipLoop o band freqs la sigmaOrig nSigma maxStddev nsols sigmaInit).rounds ≤ 5) :=
  ⟨fun valsFlagged wOrig nSigma maxStddev nsols =>
    clipLoop_rounds_le_five _ _ nsols wOrig,
   fun o band freqs la sigmaOrig nSigma maxStddev nsols sigmaInit =>
    clipLoop_rounds_le_five _ _ nsols sigmaInit⟩

/-- C4 (amended): the convergence loop of either flagger breaks during a
round exactly when that round flags `0` points or all originally
unflagged points; otherwise it always exits after at most two rounds,
because the previous-count tracker `nflag_prev` is assigned the current
`nflag` in the same round in which it is first updated (`if niter > 0:
nflag_prev = nflag` runs after `nflag` has been recomputed), so the
`while` condition `nflag != nflag_prev` fails at the next check no matter
how the counts evolved; the count-stabilization test never compares two
distinct consecutive counts and the 5-round cap is never reached. -/
theorem C4_loop_always_stops_within_two_rounds :
    (∀ (valsFlagged wOrig : List ℚ) (nSigma maxStddev : ℚ) (nsols : ℕ),
      (residClipLoop valsFlagged wOrig nSigma maxStddev nsols).rounds ≤ 2) ∧
    (∀ (o : Oracles) (band : Band) (freqs la sigmaOrig : List ℚ)
      (nSigma maxStddev : ℚ) (nsols : ℕ) (sigmaInit : List ℚ),
      (bpClipLoop o band freqs la sigmaOrig nSigma maxStddev nsols sigmaInit).rounds ≤ 2) :=
  ⟨fun valsFlagged wOrig nSigma maxStddev nsols =>
    clipLoop_rounds_le_two _ _ nsols wOrig,
   fun o band freqs la sigmaOrig nSigma maxStddev nsols sigmaInit =>
    clipLoop_rounds_le_two _ _ nsols sigmaInit⟩

/-- C4 counterexample: with residual values `[20, 6, 1, 1, 1, 1, 1, 1]`,
all weights `1`, `nSigma = 2` and an inactive `maxStddev` cap, round 1
flags 1 point and round 2 flags 2 points — the flagged count changed
between consecutive rounds (1 ≠ 2) and the final count is not degenerate
(2 ≠ 0 and 2 ≠ 8 = the number of originally unflagged points) — yet the
loop stops after 2 of the permitted 5 rounds instead of continuing, so
the claim's "terminates early exactly when the count stabilizes or is
degenerate" is false on this input. -/
theorem C4_counterexample :
    (residClipLoop [20, 6, 1, 1, 1, 1, 1, 1] [1, 1, 1, 1, 1, 1, 1, 1] 2 1000 8).history
        = [1, 2] ∧
    (residClipLoop [20, 6, 1, 1, 1, 1, 1, 1] [1, 1, 1, 1, 1, 1, 1, 1] 2 1000 8).rounds
        = 2 ∧
    (1 : ℤ) ≠ 2 ∧ (2 : ℤ) ≠ 0 ∧ (2 : ℤ) ≠ 8 ∧ 2 < 5 := by
  refine ⟨by with_unfolding_all rfl, by with_unfolding_all rfl,
    by decide, by decide, by decide, by decide⟩

/-- C1: For every run of either flagger, on any inputs (and any
instantiation of the transcendental oracles), an index whose weight is
zero on input is zero in the output: no weight ever transitions from zero
to nonzero.  For the bandpass flagger the statement covers every run that
returns a weight array (the `sys.exit(1)` band-check path returns none). -/
theorem C1_zero_weights_monotone :
    (∀ (o : Oracles) (st : SolType) (nSigma maxFF maxStddev : ℚ)
      (vals : List (List Val)) (w : List (List ℚ)),
      vals.length = w.length →
      ∀ p i, wget2 w p i = 0 →
        wget2 (_flag_resid o st nSigma maxFF maxStddev vals w).2 p i = 0) ∧
    (∀ (o : Oracles) (freqs : List ℚ) (telescope : String)
      (nSigma maxFF maxStddev : ℚ) (amps : List (List (List Val)))
      (w w' : List (List (List ℚ))),
      _flag_bandpass o freqs telescope nSigma maxFF maxStddev amps w = .ok w' →
      amps.length = w.length →
      ∀ p t f, wget3 w p t f = 0 → wget3 w' p t f = 0) :=
  ⟨fun o st nSigma maxFF maxStddev vals w hlen p i h =>
    _flag_resid_preserves_zero o st nSigma maxFF maxStddev vals w hlen p i h,
   fun o freqs tel nSigma maxFF maxStddev amps w w' hok hlen p t f h =>
    _flag_bandpass_preserves_zero o freqs tel nSigma maxFF maxStddev amps w w'
      hok hlen p t f h⟩

/-- C1 witness: a resid run (phase, weights `[[0, 1]]`) and a bandpass run
(telescope `"vla"`, weights `[[[0]]]`) at which the hypotheses hold and
the conclusions evaluate. -/
theorem C1_zero_weights_monotone_witness :
    wget2 (_flag_resid oraclesTrivial .phase 2 (1/2) 10
      [[some 1, some 1]] [[0, 1]]).2 0 0 = 0 ∧
    wget3 [[[(0 : ℚ)]]] 0 0 0 = 0 :=
  ⟨C1_zero_weights_monotone.1 oraclesTrivial .phase 2 (1/2) 10
      [[some 1, some 1]] [[0, 1]] (by decide) 0 0 (by decide),
   C1_zero_weights_monotone.2 oraclesTrivial [120000000] "vla" 2 (1/2) (1/100)
      [[[some 1]]] [[[0]]] [[[0]]] (by with_unfolding_all rfl) (by decide)
      0 0 0 (by decide)⟩

/-- C7 (amended): a second identical run never clears a flag set by the
first run — the zero-weight set can only grow — but the first run's
output is not in general a fixed point: a second run may add flags (see
`C7_counterexample`), because the convergence loop stops after at most
two rounds (C4) and a rerun continues the clipping from the committed
mask. -/
theorem C7_second_run_only_adds_flags :
    (∀ (o : Oracles) (st : SolType) (nSigma maxFF maxStddev : ℚ)
      (vals : List (List Val)) (w : List (List ℚ)),
      vals.length = w.length →
      ∀ p i, wget2 (_flag_resid o st nSigma maxFF maxStddev vals w).2 p i = 0 →
        wget2 (_flag_resid o st nSigma maxFF maxStddev vals
          (_flag_resid o st nSigma maxFF maxStddev vals w).2).2 p i = 0) ∧
    (∀ (o : Oracles) (freqs : List ℚ) (telescope : String)
      (nSigma maxFF maxStddev : ℚ) (amps : List (List (List Val)))
      (w w1 w2 : List (List (List ℚ))),
      _flag_bandpass o freqs telescope nSigma maxFF maxStddev amps w = .ok w1 →
      _flag_bandpass o freqs telescope nSigma maxFF maxStddev amps w1 = .ok w2 →
      amps.length = w.length →
      ∀ p t f, wget3 w1 p t f = 0 → wget3 w2 p t f = 0) :=
  ⟨fun o st nSigma maxFF maxStddev vals w hlen p i h =>
    _flag_resid_preserves_zero o st nSigma maxFF maxStddev vals _
      (by rw [_flag_resid_snd_length o st nSigma maxFF maxStddev vals w hlen]; exact hlen)
      p i h,
   fun o freqs tel nSigma maxFF maxStddev amps w w1 w2 hok1 hok2 hlen p t f h =>
    _flag_bandpass_preserves_zero o freqs tel nSigma maxFF maxStddev amps w1 w2 hok2
      (by rw [_flag_bandpass_ok_length o freqs tel nSigma maxFF maxStddev amps w w1
        hok1 hlen]; exact hlen)
      p t f h⟩

/-- C7 witness: a phase-resid double run on weights `[[0, 1]]` and a
bandpass double run on telescope `"gmrt"` (each worker returns its
weights unchanged there). -/
theorem C7_second_run_only_adds_flags_witness :
    wget2 (_flag_resid oraclesTrivial .phase 3 (1/2) 10 [[some 2, some 2]]
      (_flag_resid oraclesTrivial .phase 3 (1/2) 10 [[some 2, some 2]] [[0, 1]]).2).2
      0 0 = 0 ∧
    wget3 [[[(0 : ℚ), 1]]] 0 0 0 = 0 :=
  ⟨C7_second_run_only_adds_flags.1 oraclesTrivial .phase 3 (1/2) 10
      [[some 2, some 2]] [[0, 1]] (by decide) 0 0 (by with_unfolding_all rfl),
   C7_second_run_only_adds_flags.2 oraclesTrivial [130000000] "gmrt" 3 (1/2) (1/100)
      [[[some 1, some 1]]] [[[0, 1]]] [[[0, 1]]] [[[0, 1]]]
      (by with_unfolding_all rfl) (by with_unfolding_all rfl) (by decide)
      0 0 0 (by decide)⟩

set_option maxRecDepth 6000 in
/-- C7 counterexample: amplitude-resid on the single-polarization station
with amplitudes `[1000, 100, 10, 1, 1, 1]` (log10 values
`[3, 2, 1, 0, 0, 0]`), all weights `1`, `nSigma = 3/2`,
`maxFlaggedFraction = 1/2`, inactive `maxStddev` cap: the first run flags
points 0 and 1 and leaves point 2 unflagged (weight `1`), but a second
run with identical parameters on the first run's output weight array
flags point 2 as well — so the first run's output is not a fixed point
and the second run adds a flag. -/
theorem C7_counterexample :
    wget2 (_flag_resid oraclesPow .amplitude (3/2) (1/2) 1000
      [[some 1000, some 100, some 10, some 1, some 1, some 1]]
      [[1, 1, 1, 1, 1, 1]]).2 0 2 = 1 ∧
    wget2 (_flag_resid oraclesPow .amplitude (3/2) (1/2) 1000
      [[some 1000, some 100, some 10, some 1, some 1, some 1]]
      (_flag_resid oraclesPow .amplitude (3/2) (1/2) 1000
        [[some 1000, some 100, some 10, some 1, some 1, some 1]]
        [[1, 1, 1, 1, 1, 1]]).2).2 0 2 = 0 :=
  ⟨by with_unfolding_all rfl, by with_unfolding_all rfl⟩

/-- C8: in either flagger, if the fraction of originally unflagged points
that the iterative clipping step flags (the final `bad` count over
`nsols_unflagged`) exceeds `maxFlaggedFraction`, the entire
antenna-polarization is zeroed, not only the outlier points.  (In the
bandpass flagger the stddev gate is checked first, but it too zeroes the
whole polarization, so the conclusion holds regardless of which gate
fires.) -/
theorem C8_full_flag_gate :
    (∀ (o : Oracles) (st : SolType) (nSigma maxFF maxStddev : ℚ)
      (vals : List Val) (w : List ℚ),
      maxFF < ((residPolLoop o st nSigma maxStddev vals w).bad.length : ℚ) /
        ((residPolPrep o st vals w).nsols : ℚ) →
      (flagResidPol o st nSigma maxFF maxStddev vals w).2 = zerosLike w) ∧
    (∀ (o : Oracles) (band : Band) (mn mx : ℚ) (freqs : List ℚ)
      (nSigma maxFF maxStddev : ℚ) (amps : List (List Val)) (w : List (List ℚ)),
      maxFF < ((bpPolLoop o band freqs nSigma maxStddev amps w).bad.length : ℚ) /
        ((bpPolPrep o band freqs amps w).nsols : ℚ) →
      flagBandpassPol o band mn mx freqs nSigma maxFF maxStddev amps w = zeros2 w) := by
  constructor
  · intro o st nSigma maxFF maxStddev vals w hfrac
    rw [flagResidPol]
    dsimp only
    split
    · next hall =>
      show (residPolPrep o st vals w).wOrig = zerosLike w
      calc (residPolPrep o st vals w).wOrig
          = zerosLike (residPolPrep o st vals w).wOrig :=
            all_zero_eq_zerosLike _ hall
        _ = zerosLike w := zerosLike_congr_length (zeroAt_length w (badSolsIdx st vals))
    · exact zerosLike_congr_length (zeroAt_length w (badSolsIdx st vals))
  · intro o band mn mx freqs nSigma maxFF maxStddev amps w hfrac
    rw [flagBandpassPol]
    dsimp only
    split
    · next hall => exact all_zero_eq_zeros2 _ hall
    · split
      · rfl
      · rfl

set_option maxRecDepth 6000 in
/-- C8 witness: the resid side flags points `{0, 1}` out of 6 (fraction
`1/3 > 1/4`) and the whole polarization is zeroed; the bandpass side (the
fixed solver curve `[10, 10, 0, 0]` leaves residuals `10` at the first
two of four frequencies) flags fraction `1/2 > 2/5` and the whole
polarization is zeroed. -/
theorem C8_full_flag_gate_witness :
    (flagResidPol oraclesPow .amplitude (3/2) (1/4) 1000
      [some 1000, some 100, some 10, some 1, some 1, some 1]
      [1, 1, 1, 1, 1, 1]).2 = [0, 0, 0, 0, 0, 0] ∧
    flagBandpassPol oraclesBp .hba_low 50 200
      [115000000, 130000000, 150000000, 170000000] 2 (2/5) (1/100)
      [[some 2, some 2, some 2, some 2]] [[1, 1, 1, 1]] = [[0, 0, 0, 0]] := by
  constructor
  · have hfrac : ((residPolLoop oraclesPow .amplitude (3/2) 1000
        [some 1000, some 100, some 10, some 1, some 1, some 1]
        [1, 1, 1, 1, 1, 1]).bad.length : ℚ) /
        ((residPolPrep oraclesPow .amplitude
          [some 1000, some 100, some 10, some 1, some 1, some 1]
          [1, 1, 1, 1, 1, 1]).nsols : ℚ) = 1/3 := by
      with_unfolding_all rfl
    have h := C8_full_flag_gate.1 oraclesPow .amplitude (3/2) (1/4) 1000
      [some 1000, some 100, some 10, some 1, some 1, some 1]
      [1, 1, 1, 1, 1, 1] (by rw [hfrac]; norm_num)
    rw [h]
    with_unfolding_all rfl
  · have hfrac : ((bpPolLoop oraclesBp .hba_low
        [115000000, 130000000, 150000000, 170000000] 2 (1/100)
        [[some 2, some 2, some 2, some 2]] [[1, 1, 1, 1]]).bad.length : ℚ) /
        ((bpPolPrep oraclesBp .hba_low
          [115000000, 130000000, 150000000, 170000000]
          [[some 2, some 2, some 2, some 2]] [[1, 1, 1, 1]]).nsols : ℚ) = 1/2 := by
      with_unfolding_all rfl
    have h := C8_full_flag_gate.2 oraclesBp .hba_low 50 200
      [115000000, 130000000, 150000000, 170000000] 2 (2/5) (1/100)
      [[some 2, some 2, some 2, some 2]] [[1, 1, 1, 1]] (by rw [hfrac]; norm_num)
    rw [h]
    with_unfolding_all rfl

/-- C2: the claim reads "for every run in bandpass mode, a configuration
error — an unsupported telescope identifier, or a median frequency
outside both supported bands — causes the whole run to abort with a
non-zero status, with no partial weight result produced".  What the code
does (amended statement): an unsupported telescope is not fatal — the
worker logs an error and returns the antenna weights unchanged, and the
run completes with status `0`; only the out-of-band median makes the
worker itself abort (`sys.exit(1)`, no weights produced by that worker),
and even then the runner leaves that antenna unchanged and the run still
completes with status `0`.  Four parts: (1) non-LOFAR telescope: the
worker returns the weights unchanged; (2) LOFAR with median outside both
bands: the worker exits with status `1`; (3)-(4) in both situations the
whole `run` completes, returning every station's pre-zeroed weights
unchanged. -/
theorem C2_bandpass_config_errors :
    (∀ (o : Oracles) (freqs : List ℚ) (telescope : String)
      (nSigma maxFF maxStddev : ℚ) (amps : List (List (List Val)))
      (w : List (List (List ℚ))), toLowerStr telescope ≠ "lofar" →
      _flag_bandpass o freqs telescope nSigma maxFF maxStddev amps w = .ok w) ∧
    (∀ (o : Oracles) (freqs : List ℚ) (telescope : String)
      (nSigma maxFF maxStddev : ℚ) (amps : List (List (List Val)))
      (w : List (List (List ℚ))), toLowerStr telescope = "lofar" →
      ¬(medianQ freqs < 180000000 ∧ medianQ freqs > 110000000) →
      ¬(medianQ freqs < 90000000) →
      _flag_bandpass o freqs telescope nSigma maxFF maxStddev amps w = .error 1) ∧
    (∀ (o : Oracles) (maxFF nSigma : ℚ) (telescope refA sE : String) (ncpu : ℕ)
      (freqs : List ℚ) (data : List StationData), toLowerStr telescope ≠ "lofar" →
      run o "bandpass" maxFF nSigma telescope refA sE ncpu "amplitude" freqs data
        = .ok (data.map preZeroStation)) ∧
    (∀ (o : Oracles) (maxFF nSigma : ℚ) (telescope refA sE : String) (ncpu : ℕ)
      (freqs : List ℚ) (data : List StationData), toLowerStr telescope = "lofar" →
      ¬(medianQ freqs < 180000000 ∧ medianQ freqs > 110000000) →
      ¬(medianQ freqs < 90000000) →
      run o "bandpass" maxFF nSigma telescope refA sE ncpu "amplitude" freqs data
        = .ok (data.map preZeroStation)) := by
  have h1 : ∀ (o : Oracles) (freqs : List ℚ) (telescope : String)
      (nSigma maxFF maxStddev : ℚ) (amps : List (List (List Val)))
      (w : List (List (List ℚ))), toLowerStr telescope ≠ "lofar" →
      _flag_bandpass o freqs telescope nSigma maxFF maxStddev amps w = .ok w := by
    intro o freqs telescope nSigma maxFF maxStddev amps w h
    rw [_flag_bandpass, if_neg h]
  have h2 : ∀ (o : Oracles) (freqs : List ℚ) (telescope : String)
      (nSigma maxFF maxStddev : ℚ) (amps : List (List (List Val)))
      (w : List (List (List ℚ))), toLowerStr telescope = "lofar" →
      ¬(medianQ freqs < 180000000 ∧ medianQ freqs > 110000000) →
      ¬(medianQ freqs < 90000000) →
      _flag_bandpass o freqs telescope nSigma maxFF maxStddev amps w = .error 1 := by
    intro o freqs telescope nSigma maxFF maxStddev amps w ht hb1 hb2
    rw [_flag_bandpass, if_pos ht, if_neg hb1, if_neg hb2]
  refine ⟨h1, h2, ?_, ?_⟩
  · intro o maxFF nSigma telescope refA sE ncpu freqs data h
    rw [run, if_neg (by decide), if_pos rfl, if_neg (by simp)]
    refine congrArg Except.ok (List.map_congr_left fun sd _ => ?_)
    rw [h1 o freqs telescope nSigma maxFF (1/100) sd.vals (preZeroStation sd) h]
  · intro o maxFF nSigma telescope refA sE ncpu freqs data ht hb1 hb2
    rw [run, if_neg (by decide), if_pos rfl, if_neg (by simp)]
    refine congrArg Except.ok (List.map_congr_left fun sd _ => ?_)
    rw [h2 o freqs telescope nSigma maxFF (1/100) sd.vals (preZeroStation sd) ht hb1 hb2]

/-- C2 witness: telescope `"vla"` (median `150 MHz`, in band) — the
single-station weights come back unchanged and the run completes; LOFAR
with median `200 MHz` (outside both bands) — the worker exits `1`, and
the run still completes with the station unchanged. -/
theorem C2_bandpass_config_errors_witness :
    (toLowerStr "vla" ≠ "lofar" ∧
     _flag_bandpass oraclesTrivial [150000000] "vla" 5 (1/2) (1/100)
       [[[some 1]]] [[[1]]] = .ok [[[1]]]) ∧
    (toLowerStr "LOFAR" = "lofar" ∧
     ¬(medianQ [200000000] < 180000000 ∧ medianQ [200000000] > 110000000) ∧
     ¬(medianQ [200000000] < 90000000) ∧
     _flag_bandpass oraclesTrivial [200000000] "LOFAR" 5 (1/2) (1/100)
       [[[some 1]]] [[[1]]] = .error 1) ∧
    run oraclesTrivial "bandpass" (1/2) 5 "vla" "" "" 1 "amplitude" [150000000]
      [⟨[[[some 1]]], [[[1]]]⟩] = .ok [[[[1]]]] ∧
    run oraclesTrivial "bandpass" (1/2) 5 "LOFAR" "" "" 1 "amplitude" [200000000]
      [⟨[[[some 1]]], [[[1]]]⟩] = .ok [[[[1]]]] := by
  refine ⟨⟨by decide, C2_bandpass_config_errors.1 oraclesTrivial [150000000] "vla"
      5 (1/2) (1/100) [[[some 1]]] [[[1]]] (by decide)⟩,
    ⟨by decide, ?_, ?_,
     C2_bandpass_config_errors.2.1 oraclesTrivial [200000000] "LOFAR"
      5 (1/2) (1/100) [[[some 1]]] [[[1]]] (by decide) ?_ ?_⟩, ?_, ?_⟩
  · have hm : medianQ [200000000] = 200000000 := by with_unfolding_all rfl
    rw [hm]; norm_num
  · have hm : medianQ [200000000] = 200000000 := by with_unfolding_all rfl
    rw [hm]; norm_num
  · have hm : medianQ [200000000] = 200000000 := by with_unfolding_all rfl
    rw [hm]; norm_num
  · have hm : medianQ [200000000] = 200000000 := by with_unfolding_all rfl
    rw [hm]; norm_num
  · have h := C2_bandpass_config_errors.2.2.1 oraclesTrivial (1/2) 5 "vla" "" "" 1
      [150000000] [⟨[[[some 1]]], [[[1]]]⟩] (by decide)
    rw [h]
    with_unfolding_all rfl
  · have hm : medianQ [200000000] = 200000000 := by with_unfolding_all rfl
    have h := C2_bandpass_config_errors.2.2.2 oraclesTrivial (1/2) 5 "LOFAR" "" "" 1
      [200000000] [⟨[[[some 1]]], [[[1]]]⟩] (by decide)
      (by rw [hm]; norm_num) (by rw [hm]; norm_num)
    rw [h]
    with_unfolding_all rfl

/-- C2 counterexample to the original claim: a bandpass run with the
unsupported telescope `"vla"` does not abort — it completes with status
`0` and produces a weight result (the station kept its weight `1`). -/
theorem C2_counterexample :
    run oraclesTrivial "bandpass" (1/2) 5 "vla" "" "" 2 "amplitude" [150000000]
      [⟨[[[some 2]]], [[[1]]]⟩] = .ok [[[[1]]]] := by
  with_unfolding_all rfl

/-- C3: the claim reads "the mean removed from the values is ... the
weighted arithmetic mean (sum of weight·value divided by sum of weights)
when the solutions are amplitudes (in log10 space)".  The code diverges
twice (source lines 84-92): the amplitude branch computes
`np.nansum(weights * vals) / (vals.size * np.sum(weights))` — the
denominator is `N·Σw`, not `Σw` — and then never subtracts it (only the
phase branch of lines 89-91 subtracts a mean).  On log-amplitudes
`[1, 3]` with unit weights the residuals entering the clip loop are
`[1, 3]` themselves (no mean removed), the code's "mean" is `1`, and the
spec's weighted arithmetic mean is `2`. -/
theorem C3_amplitude_mean_bug :
    (residPolPrep oraclesLog13 .amplitude [some 10, some 1000] [1, 1]).valsFlagged
      = [1, 3] ∧
    residAmpMean [1, 1] [some 1, some 3] = 1 ∧
    specWeightedArithMean [1, 1] [some 1, some 3] = 2 ∧
    residAmpMean [1, 1] [some 1, some 3]
      ≠ specWeightedArithMean [1, 1] [some 1, some 3] := by
  refine ⟨by with_unfolding_all rfl, by with_unfolding_all rfl,
    by with_unfolding_all rfl, ?_⟩
  have ha : residAmpMean [1, 1] [some 1, some 3] = 1 := by with_unfolding_all rfl
  have hb : specWeightedArithMean [1, 1] [some 1, some 3] = 2 := by
    with_unfolding_all rfl
  rw [ha, hb]
  norm_num

/-- C6: the claim reads "the basis evaluator forces the first or the last
basis function to +1 or −1 depending on which side of the span x falls
... with opposite-sign basis contributions".  The code cannot do that:
`_bspline` initializes `invert = False` and its below-span branch
(source line 208) assigns `invert = False` again instead of `True`, so
`invert` is identically `false` (first conjunct) and the degree-0 basis
under extrapolation evaluates to `+1` on both sides of the span (last
two conjuncts, at a below-span and an above-span point of the HBA-low
knots, whose extrapolation masks select the first and the last basis
respectively) — the `-1` branch of `_B` is dead code and the two sides
get the same sign, not opposite signs. -/
theorem C6_extrapolation_sign_bug :
    (∀ (x : ℚ) (t : List ℚ) (n k : ℕ), bsplineInvert x t n k = false) ∧
    (bsplineExtrap 100000000 knotsHBAlow 10 3).getD 0 false = true ∧
    (bsplineExtrap 200000000 knotsHBAlow 10 3).getD 9 false = true ∧
    _B 100000000 0 0 knotsHBAlow true (bsplineInvert 100000000 knotsHBAlow 10 3) = 1 ∧
    _B 200000000 0 9 knotsHBAlow true (bsplineInvert 200000000 knotsHBAlow 10 3) = 1 := by
  refine ⟨?_, by with_unfolding_all rfl, by with_unfolding_all rfl,
    by with_unfolding_all rfl, by with_unfolding_all rfl⟩
  intro x t n k
  rw [bsplineInvert]
  split
  · rfl
  · split
    · rfl
    · rfl

/-- C9: the claim reads "the solution (value) slice passed to the task is
read-only: after the task completes, the solution array is unchanged;
only the weight slice is mutated".  Amended statement: this holds for
the phase-resid task (proved here for every input of matching shape —
the phase branch rebinds `vals_flagged` to a fresh array), and for the
bandpass task (which only returns weights), but not for the
amplitude-resid task: source line 81 takes `np.log10` of the value slice
in place and line 92 zeroes its flagged entries, so the solution array
comes back mutated (see `C9_counterexample`). -/
theorem C9_phase_value_slice_read_only :
    ∀ (o : Oracles) (nSigma maxFF maxStddev : ℚ)
      (vals : List (List Val)) (w : List (List ℚ)),
      vals.length = w.length →
      (_flag_resid o .phase nSigma maxFF maxStddev vals w).1 = vals := by
  intro o nSigma maxFF maxStddev vals w hlen
  rw [_flag_resid]
  split
  · rfl
  · exact zip_map_fst vals w _
      (fun a b => flagResidPol_phase_fst o nSigma maxFF maxStddev a b) hlen

/-- C9 witness: a 1×1 phase station comes back with its value slice
intact. -/
theorem C9_phase_value_slice_read_only_witness :
    ([[some (1:ℚ)]] : List (List Val)).length = ([[1]] : List (List ℚ)).length ∧
    (_flag_resid oraclesTrivial .phase 5 (1/2) (1/10) [[some 1]] [[1]]).1
      = [[some 1]] :=
  ⟨rfl, C9_phase_value_slice_read_only oraclesTrivial 5 (1/2) (1/10)
    [[some 1]] [[1]] rfl⟩

/-- C9 counterexample to the original claim: the amplitude-resid task on
the single value `10` (weight `1`) returns the value slice as
`[[log10 10]] = [[1]]`, not the input `[[10]]` — the solution array was
mutated in place. -/
theorem C9_counterexample :
    (_flag_resid oraclesLog10Ten .amplitude 5 (1/2) (1/50) [[some 10]] [[1]]).1
      = [[some 1]] ∧
    (_flag_resid oraclesLog10Ten .amplitude 5 (1/2) (1/50) [[some 10]] [[1]]).1
      ≠ [[some 10]] := by
  have h : (_flag_resid oraclesLog10Ten .amplitude 5 (1/2) (1/50)
      [[some 10]] [[1]]).1 = [[some 1]] := by with_unfolding_all rfl
  refine ⟨h, ?_⟩
  rw [h]
  norm_num

/-- C10: the `maxStddev` cap is a fixed internal constant selected by
mode and solution type — `run` takes no such parameter, and for every
caller input it invokes the flagger with the literal cap: `1/100`
(= 0.01, bandpass mode, source line 538), `1/10` (= 0.1 radians,
resid-mode phase, line 554), `1/50` (= 0.02 log10-amplitude, resid-mode
amplitude, line 556). -/
theorem C10_maxStddev_fixed_constants :
    (∀ (o : Oracles) (maxFF nSigma : ℚ) (telescope refA sE : String) (ncpu : ℕ)
      (freqs : List ℚ) (data : List StationData),
      run o "bandpass" maxFF nSigma telescope refA sE ncpu "amplitude" freqs data
        = .ok (data.map fun sd =>
            match _flag_bandpass o freqs telescope nSigma maxFF (1/100)
                sd.vals (preZeroStation sd) with
            | .ok w' => w'
            | .error _ => preZeroStation sd)) ∧
    (∀ (o : Oracles) (maxFF nSigma : ℚ) (telescope refA sE : String) (ncpu : ℕ)
      (freqs : List ℚ) (data : List StationData),
      run o "resid" maxFF nSigma telescope refA sE ncpu "phase" freqs data
        = .ok (data.map fun sd =>
            reshapePols (preZeroStation sd)
              ((_flag_resid o .phase nSigma maxFF (1/10)
                (flattenPols sd.vals) (flattenPols (preZeroStation sd))).2))) ∧
    (∀ (o : Oracles) (maxFF nSigma : ℚ) (telescope refA sE : String) (ncpu : ℕ)
      (freqs : List ℚ) (data : List StationData),
      run o "resid" maxFF nSigma telescope refA sE ncpu "amplitude" freqs data
        = .ok (data.map fun sd =>
            reshapePols (preZeroStation sd)
              ((_flag_resid o .amplitude nSigma maxFF (1/50)
                (flattenPols sd.vals) (flattenPols (preZeroStation sd))).2))) := by
  refine ⟨?_, ?_, ?_⟩
  · intro o maxFF nSigma telescope refA sE ncpu freqs data
    rw [run, if_neg (by decide), if_pos rfl, if_neg (by simp)]
  · intro o maxFF nSigma telescope refA sE ncpu freqs data
    rw [run, if_neg (by decide), if_neg (by decide), if_neg (by simp)]
    simp only [reduceIte]
  · intro o maxFF nSigma telescope refA sE ncpu freqs data
    rw [run, if_neg (by decide), if_neg (by decide), if_neg (by simp)]
    simp only [if_neg (show ("amplitude" : String) ≠ "phase" from by decide)]

end Flagstation
